import Mathlib

/-!
Dialogue record projections of the Lua bindings.

A shallow embedding of `apps/openmw/mwlua/dialoguebindings.cpp`:

* `FilteredDialogueStore<filter>`: a view of the dialogue store restricted to one
  dialogue type, with its iterator, `search`, `at`, `getSize`, `begin`, `end`;
* the host-facing length and index metamethods of that view;
* `DialogueInfos`: the child list of a dialogue record, re-resolved by identity;
* the computed properties of `ESM::DialInfo`.

Iterators of the store are positions `0 .. length` in the store's iteration order, the
position `length` being `end()`.  Reading the record at `end()` (or beyond) is undefined
behaviour in the source; the embedding makes it the explicit fault
`Fault.endDereferenced`, so that a theorem saying an operation returns `Except.ok`
also says that the operation never reads the end position.
-/

namespace MWLua

/-! ## Data model -/

/-- Modelled from the spec: `ESM::RefId` (components/esm/refid.hpp is not among the
sources).  The spec calls it a "stable identity (string-like key, case-normalized)"; the
bindings only compare identities and read their serialized text, so an identity is
represented by that text. -/
structure RefId where
  serializeText : String
deriving DecidableEq, Repr

/-- Modelled from the spec: `ESM::Dialogue::Type` (components/esm3/loaddial.hpp is not
among the sources), the "closed set of record kinds".  The five kinds named in
dialoguebindings.cpp, and `Unknown` for any further value of the enumeration. -/
inductive DialogueType where
  | Topic
  | Voice
  | Greeting
  | Persuasion
  | Journal
  | Unknown
deriving DecidableEq, Repr

/-- Modelled from the spec: `ESM::DialInfo::QuestStatus` (components/esm3/loadinfo.hpp is
not among the sources).  The three statuses named in dialoguebindings.cpp, and `QS_None`
for a child record that carries none of them. -/
inductive QuestStatus where
  | QS_None
  | QS_Name
  | QS_Finished
  | QS_Restart
deriving DecidableEq, Repr

/-- Modelled from the spec: the `mData` block of `ESM::DialInfo`, with the fields read by
dialoguebindings.cpp.  The integer fields are signed machine integers in the source;
the bindings only compare them with `-1` and pass them on, so they are integers here. -/
structure DialInfoData where
  mType : DialogueType
  mDisposition : Int
  mJournalIndex : Int
  mRank : Int
  mGender : Int
  mPCrank : Int
deriving DecidableEq, Repr

/-- Modelled from the spec: `ESM::DialInfo`, the "Child Record", with the fields read by
dialoguebindings.cpp. -/
structure DialInfo where
  mId : RefId
  mData : DialInfoData
  mQuestStatus : QuestStatus
  mActor : RefId
  mRace : RefId
  mClass : RefId
  mFaction : RefId
  mPcFaction : RefId
  mCell : RefId
  mSound : String
  mResponse : String
  mResultScript : String
deriving DecidableEq, Repr

/-- Modelled from the spec: `ESM::Dialogue`, the "Record", with the fields read by
dialoguebindings.cpp; `mInfo` is the child list (`InfoContainer`) in list order. -/
structure Dialogue where
  mId : RefId
  mStringId : String
  mType : DialogueType
  mInfo : List DialInfo
deriving DecidableEq, Repr

/-- Modelled from the spec: the content of `MWWorld::Store<ESM::Dialogue>` (store.hpp is
not among the sources): the records in the store's forward-iteration order. -/
abbrev Store := List Dialogue

/-- Modelled from the spec: `MWWorld::Store<ESM::Dialogue>::search` (store.cpp is not
among the sources): "`search(identity) -> Record?` (exact match or absent)". -/
def Store.search (S : Store) (id : RefId) : Option Dialogue :=
  S.find? (fun r => r.mId == id)

/-- The ways in which the embedded code can fail to return.  `endDereferenced`: the record
at `end()` or beyond is read (undefined behaviour in the source).  `fuelExhausted`: a loop of
the embedding ran out of its iteration budget (shown below never to happen). -/
inductive Fault where
  | endDereferenced
  | fuelExhausted
deriving DecidableEq, Repr

deriving instance DecidableEq for Except

/-- Dereference of a store iterator (`*mIter`, `mIter->`): the record at the position,
a fault at `end()` or beyond. -/
def deref (S : Store) (pos : Nat) : Except Fault Dialogue :=
  match S[pos]? with
  | some d => .ok d
  | none => .error .endDereferenced

/-- Embedding of `std::count_if(first, last, pred)`: the counting loop over the range. -/
def count_if {α : Type} (pred : α → Bool) (range : List α) : Nat :=
  range.foldl (fun ret x => if pred x then ret + 1 else ret) 0

/-! ## FilteredDialogueStore -/

namespace FilteredDialogueStore

/-- Embedding of `foundDialogueFilteredOut`: the looked-up record when there is one and its type is the
filter, `nullptr` otherwise. -/
def foundDialogueFilteredOut (filter : DialogueType) (possibleResult : Option Dialogue) :
    Option Dialogue :=
  match possibleResult with
  | some d => if d.mType = filter then some d else none
  | none => none

/-- Embedding of `search`: the backing store's search, passed through `foundDialogueFilteredOut`. -/
def search (filter : DialogueType) (S : Store) (id : RefId) : Option Dialogue :=
  foundDialogueFilteredOut filter (S.search id)

/-- Embedding of `getSize`: `std::count_if` over the whole store with the predicate `d.mType == filter`. -/
def getSize (filter : DialogueType) (S : Store) : Nat :=
  count_if (fun d => decide (d.mType = filter)) S

/-- Embedding of `end()`: the store's end position. -/
def «end» (S : Store) : Nat := S.length

/-- The loop `do { std::advance(mIter, 1); } while (mIter->mType != filter);` of
`FilteredDialogueIterator::operator++`.  `rest` are the records after the position `pos` of
`mIter`.  The advance moves to `pos + 1`; the loop condition reads the record there without
comparing with `end()` first: with no record left that read is the fault, with a record of
another type the loop goes round again, with a record of the filter type the loop ends. -/
def incrementLoop (filter : DialogueType) : List Dialogue → Nat → Except Fault Nat
  | [], _ => .error .endDereferenced
  | d :: rest, pos =>
    if d.mType ≠ filter then incrementLoop filter rest (pos + 1) else .ok (pos + 1)

/-- Embedding of `FilteredDialogueIterator::operator++()` (prefix): the new position of the iterator. -/
def increment (filter : DialogueType) (S : Store) (pos : Nat) : Except Fault Nat :=
  incrementLoop filter (S.drop (pos + 1)) pos

/-- Embedding of `FilteredDialogueIterator::operator++(int)` (postfix): the same loop; the result is the
pair of the returned copy (the old position) and the new position of the iterator. -/
def postIncrement (filter : DialogueType) (S : Store) (pos : Nat) : Except Fault (Nat × Nat) :=
  match incrementLoop filter (S.drop (pos + 1)) pos with
  | .ok pos' => .ok (pos, pos')
  | .error e => .error e

/-- Embedding of `std::advance(it, n)` on a `FilteredDialogueIterator`: `n` times `++it`. -/
def advance (filter : DialogueType) (S : Store) : Nat → Nat → Except Fault Nat
  | 0, pos => .ok pos
  | n + 1, pos =>
    match increment filter S pos with
    | .ok pos' => advance filter S n pos'
    | .error e => .error e

/-- The loop of `begin()`:
`while (result != end() and result->mType != filter) std::advance(result, 1);`
where `result` is a `FilteredDialogueIterator`, so that the body is its `operator++`. -/
def beginLoop (filter : DialogueType) (S : Store) : Nat → Nat → Except Fault Nat
  | 0, _ => .error .fuelExhausted
  | fuel + 1, result =>
    if result ≠ «end» S then
      match deref S result with
      | .ok d =>
        if d.mType ≠ filter then
          match increment filter S result with
          | .ok result' => beginLoop filter S fuel result'
          | .error e => .error e
        else .ok result
      | .error e => .error e
    else .ok result

/-- Embedding of `begin()`: the loop above, started at the store's first position. -/
def «begin» (filter : DialogueType) (S : Store) : Except Fault Nat :=
  beginLoop filter S (S.length + 1) 0

/-- Embedding of `at(index)`: `nullptr` when `index >= getSize()`; otherwise `begin()`, advanced `index`
times, dereferenced. -/
def «at» (filter : DialogueType) (S : Store) (index : Nat) : Except Fault (Option Dialogue) :=
  if index ≥ getSize filter S then .ok none
  else
    match «begin» filter S with
    | .ok result =>
      match advance filter S index result with
      | .ok result' =>
        match deref S result' with
        | .ok d => .ok (some d)
        | .error e => .error e
      | .error e => .error e
    | .error e => .error e

/-- The length metamethod: `store.getSize()`. -/
def length (filter : DialogueType) (S : Store) : Nat := getSize filter S

/-- The integer overload of the index metamethod:
`if (index == 0 or index > store.getSize()) return nullptr; return store.at(index - 1);` -/
def index (filter : DialogueType) (S : Store) (index : Nat) : Except Fault (Option Dialogue) :=
  if index = 0 ∨ index > getSize filter S then .ok none
  else «at» filter S (index - 1)

/-- The client loop `for (it = begin(); it != end(); ++it) yield *it;`, from the position
`it` on: the records it yields. -/
def iterateLoop (filter : DialogueType) (S : Store) : Nat → Nat → Except Fault (List Dialogue)
  | 0, _ => .error .fuelExhausted
  | fuel + 1, it =>
    if it ≠ «end» S then
      match deref S it with
      | .ok d =>
        match increment filter S it with
        | .ok it' =>
          match iterateLoop filter S fuel it' with
          | .ok ds => .ok (d :: ds)
          | .error e => .error e
        | .error e => .error e
      | .error e => .error e
    else .ok []

/-- Iteration of the filtered store from `begin()` until the iterator equals `end()`. -/
def iterate (filter : DialogueType) (S : Store) : Except Fault (List Dialogue) :=
  match «begin» filter S with
  | .ok it => iterateLoop filter S (S.length + 1) it
  | .error e => .error e

/-- The string overload of `table["record"]`:
`StoreT{}.search(ESM::RefId::deserializeText(Misc::StringUtils::lowerCase(id)))`.  The view
`StoreT{}` is built over the same store.  `lowerCase` is `Misc::StringUtils::lowerCase` and
`deserializeText` is `ESM::RefId::deserializeText`; neither is among the sources. -/
def record (lowerCase : String → String) (deserializeText : String → RefId)
    (filter : DialogueType) (S : Store) (id : String) : Option Dialogue :=
  search filter S (deserializeText (lowerCase id))

/-- The string overload of the index metamethod:
`store.search(ESM::RefId::deserializeText(Misc::StringUtils::lowerCase(id)))`. -/
def indexString (lowerCase : String → String) (deserializeText : String → RefId)
    (filter : DialogueType) (S : Store) (id : String) : Option Dialogue :=
  search filter S (deserializeText (lowerCase id))

end FilteredDialogueStore

/-! ## DialogueInfos -/

/-- Embedding of `DialogueInfos`: the secondary projection; it holds the identity of the parent record
and nothing else. -/
structure DialogueInfos where
  mDialogueRecordId : RefId
deriving DecidableEq, Repr

namespace DialogueInfos

/-- Embedding of `getDialogueRecord`: the parent record, looked up again in the store on every call. -/
def getDialogueRecord (store : DialogueInfos) (S : Store) : Option Dialogue :=
  S.search store.mDialogueRecordId

/-- The string conversion of `DialogueInfos`; `none` is `sol::nil`.  `toDebugString` is
`ESM::RefId::toDebugString`, which is not among the sources. -/
def to_string (toDebugString : RefId → String) (store : DialogueInfos) (S : Store) :
    Option String :=
  match store.getDialogueRecord S with
  | some dialogueRecord =>
    some ("\x7b" ++ toString dialogueRecord.mInfo.length ++ " ESM3_Dialogue["
      ++ toDebugString dialogueRecord.mId ++ "] info elements\x7d")
  | none => none

/-- The length metamethod of `DialogueInfos`:
`dialogueRecord ? dialogueRecord->mInfo.size() : 0`. -/
def length (store : DialogueInfos) (S : Store) : Nat :=
  match store.getDialogueRecord S with
  | some dialogueRecord => dialogueRecord.mInfo.length
  | none => 0

/-- The index metamethod of `DialogueInfos`: `nullptr` when the parent is not found, the
index is 0 or the index exceeds the size of the child list; otherwise the list iterator
`cbegin()`, advanced `index - 1` times, dereferenced (a fault if that were the list's end). -/
def index (store : DialogueInfos) (S : Store) (index : Nat) : Except Fault (Option DialInfo) :=
  match store.getDialogueRecord S with
  | none => .ok none
  | some dialogueRecord =>
    if index = 0 ∨ index > dialogueRecord.mInfo.length then .ok none
    else
      let iter := 0 + (index - 1)
      match dialogueRecord.mInfo[iter]? with
      | some info => .ok (some info)
      | none => .error .endDereferenced

end DialogueInfos

/-! ## Properties of ESM::Dialogue -/

namespace Dialogue

/-- The `id` property. -/
def id (rec : Dialogue) : String := rec.mId.serializeText

/-- The `name` property. -/
def name (rec : Dialogue) : String := rec.mStringId

/-- The loop `for (const auto& mwDialogueInfo : rec.mInfo)` of the `questName` property: it
returns the response of the first child whose status is `QS_Name`, and falls through to
`sol::nil` when the list is exhausted. -/
def questNameLoop : List DialInfo → Option String
  | [] => none
  | mwDialogueInfo :: rest =>
    if mwDialogueInfo.mQuestStatus = .QS_Name then some mwDialogueInfo.mResponse
    else questNameLoop rest

/-- The `questName` property; `none` is `sol::nil`. -/
def questName (rec : Dialogue) : Option String :=
  if rec.mType ≠ .Journal then none
  else questNameLoop rec.mInfo

/-- The `infos` property: `DialogueInfos{ rec.mId }`. -/
def infos (rec : Dialogue) : DialogueInfos := { mDialogueRecordId := rec.mId }

end Dialogue

/-! ## Properties of ESM::DialInfo

Every property returns a `sol::object`; `none` is `sol::nil`. -/

namespace DialInfo

/-- The `questStage` property. -/
def questStage (rec : DialInfo) : Option Int :=
  if rec.mData.mType ≠ .Journal then none
  else some rec.mData.mJournalIndex

/-- The `questFinished` property. -/
def questFinished (rec : DialInfo) : Option Bool :=
  if rec.mData.mType ≠ .Journal then none
  else some (decide (rec.mQuestStatus = .QS_Finished))

/-- The `questRestart` property. -/
def questRestart (rec : DialInfo) : Option Bool :=
  if rec.mData.mType ≠ .Journal then none
  else some (decide (rec.mQuestStatus = .QS_Restart))

/-- The `filterActorId` property. -/
def filterActorId (rec : DialInfo) : Option String :=
  if rec.mData.mType = .Journal then none
  else
    let result := rec.mActor.serializeText
    if result = "" then none else some result

/-- The `filterActorRace` property. -/
def filterActorRace (rec : DialInfo) : Option String :=
  if rec.mData.mType = .Journal then none
  else
    let result := rec.mRace.serializeText
    if result = "" then none else some result

/-- The `filterActorClass` property. -/
def filterActorClass (rec : DialInfo) : Option String :=
  if rec.mData.mType = .Journal then none
  else
    let result := rec.mClass.serializeText
    if result = "" then none else some result

/-- The `filterActorFaction` property. -/
def filterActorFaction (rec : DialInfo) : Option String :=
  if rec.mData.mType = .Journal then none
  else
    let result := rec.mFaction.serializeText
    if result = "" then none else some result

/-- The `filterActorFactionRank` property. -/
def filterActorFactionRank (rec : DialInfo) : Option Int :=
  if rec.mData.mType = .Journal then none
  else
    let result := rec.mData.mRank
    if result = -1 then none else some result

/-- The `filterActorCell` property. -/
def filterActorCell (rec : DialInfo) : Option String :=
  if rec.mData.mType = .Journal then none
  else
    let result := rec.mCell.serializeText
    if result = "" then none else some result

/-- The `filterActorDisposition` property. -/
def filterActorDisposition (rec : DialInfo) : Option Int :=
  if rec.mData.mType = .Journal then none
  else some rec.mData.mDisposition

/-- The `filterActorGender` property. -/
def filterActorGender (rec : DialInfo) : Option Int :=
  if rec.mData.mType = .Journal then none
  else
    let result := rec.mData.mGender
    if result = -1 then none else some result

/-- The `filterPlayerFaction` property. -/
def filterPlayerFaction (rec : DialInfo) : Option String :=
  if rec.mData.mType = .Journal then none
  else
    let result := rec.mPcFaction.serializeText
    if result = "" then none else some result

/-- The `filterPlayerFactionRank` property. -/
def filterPlayerFactionRank (rec : DialInfo) : Option Int :=
  if rec.mData.mType = .Journal then none
  else
    let result := rec.mData.mPCrank
    if result = -1 then none else some result

/-- The `sound` property.  `normalized` is the text of `VFS::Path::Normalized(rec.mSound)` and
`correctSoundPath` is `Misc::ResourceHelpers::correctSoundPath`; neither is among the
sources. -/
def sound (normalized correctSoundPath : String → String) (rec : DialInfo) : Option String :=
  if rec.mData.mType = .Journal ∨ rec.mSound = "" then none
  else some (correctSoundPath (normalized rec.mSound))

/-- The `resultScript` property. -/
def resultScript (rec : DialInfo) : Option String :=
  if rec.mResultScript = "" then none else some rec.mResultScript

end DialInfo

/-! ## Reference notions and scenario data -/

/-- The records of the store whose type is the filter, in store order. -/
def matching (filter : DialogueType) (S : Store) : List Dialogue :=
  S.filter (fun d => decide (d.mType = filter))

/-- A child record of the given kind with every field at its "not applicable" value. -/
def blankInfo (kind : DialogueType) : DialInfo :=
  { mId := ⟨"info"⟩,
    mData := { mType := kind, mDisposition := 0, mJournalIndex := 0, mRank := -1,
               mGender := -1, mPCrank := -1 },
    mQuestStatus := .QS_None,
    mActor := ⟨""⟩, mRace := ⟨""⟩, mClass := ⟨""⟩, mFaction := ⟨""⟩, mPcFaction := ⟨""⟩,
    mCell := ⟨""⟩, mSound := "", mResponse := "", mResultScript := "" }

/-- The first record of the spec's scenario: "a", a Topic. -/
def recA : Dialogue := { mId := ⟨"a"⟩, mStringId := "a", mType := .Topic, mInfo := [] }

/-- The second record of the spec's scenario: "b", a Journal, here with two children. -/
def recB : Dialogue :=
  { mId := ⟨"b"⟩, mStringId := "b", mType := .Journal,
    mInfo := [blankInfo .Journal, { blankInfo .Journal with mResponse := "stage" }] }

/-- The third record of the spec's scenario: "c", a Topic. -/
def recC : Dialogue := { mId := ⟨"c"⟩, mStringId := "c", mType := .Topic, mInfo := [] }

/-- The store of the spec's scenario: "a" (Topic), "b" (Journal), "c" (Topic). -/
def scenarioStore : Store := [recA, recB, recC]

/-- The child record of the spec's scenario: kind Journal, `mJournalIndex = 5`, status
Finished, and an actor filter that the kind gate must hide. -/
def journalInfo : DialInfo :=
  { blankInfo .Journal with
    mData := { mType := .Journal, mDisposition := 40, mJournalIndex := 5, mRank := 3,
               mGender := 1, mPCrank := 2 },
    mQuestStatus := .QS_Finished,
    mActor := ⟨"fargoth"⟩, mSound := "vo/a.mp3" }

/-- A Topic child with faction rank 3 and the other two sentinel-coded fields at -1. -/
def topicInfo : DialInfo :=
  { blankInfo .Topic with
    mData := { mType := .Topic, mDisposition := 0, mJournalIndex := 0, mRank := 3,
               mGender := -1, mPCrank := -1 } }

/-- Upper-casing of a text, character by character; a stand-in for a path normalization
in the examples. -/
def asciiUpper (s : String) : String := ⟨s.data.map Char.toUpper⟩

/-- Lower-casing of a text, character by character; a stand-in for
`Misc::StringUtils::lowerCase` in the examples. -/
def asciiLower (s : String) : String := ⟨s.data.map Char.toLower⟩

/-- A Voice child with an actor filter, a sound file and a result script; its other
identity filters are empty. -/
def voiceInfo : DialInfo :=
  { blankInfo .Voice with
    mActor := ⟨"fargoth"⟩, mSound := "vo/a.mp3", mResultScript := "Journal A1 10" }

/-- A Journal record whose second and third children both carry the status `QS_Name`. -/
def questRec : Dialogue :=
  { mId := ⟨"a1_quest"⟩, mStringId := "a1_quest", mType := .Journal,
    mInfo := [ { blankInfo .Journal with mResponse := "stage text" },
               { blankInfo .Journal with mQuestStatus := .QS_Name, mResponse := "Quest" },
               { blankInfo .Journal with mQuestStatus := .QS_Name, mResponse := "Other" } ] }

/-- The iterator stands at position `pos` of `S`, on the record `d`, which is of the filter
type and is preceded by exactly `j` records of the filter type; `tail` are the records after
it. -/
def AtMatch (filter : DialogueType) (S : Store) (pos j : Nat) (d : Dialogue)
    (tail : List Dialogue) : Prop :=
  ∃ pre : List Dialogue, S = pre ++ d :: tail ∧ pos = pre.length ∧ d.mType = filter ∧
    (matching filter pre).length = j

/-! ## Lemmas on the filtered store -/

theorem count_if_foldl {α : Type} (pred : α → Bool) (range : List α) (ret : Nat) :
    range.foldl (fun ret x => if pred x then ret + 1 else ret) ret
      = ret + (range.filter pred).length := by
  induction range generalizing ret with
  | nil => simp
  | cons x xs ih =>
    simp only [List.foldl_cons, List.filter_cons]
    rw [ih]
    by_cases hx : pred x = true
    · simp [hx]; omega
    · simp [hx]

theorem count_if_eq_length_filter {α : Type} (pred : α → Bool) (range : List α) :
    count_if pred range = (range.filter pred).length := by
  unfold count_if
  rw [count_if_foldl]
  simp

theorem getSize_eq_length_matching (filter : DialogueType) (S : Store) :
    FilteredDialogueStore.getSize filter S = (matching filter S).length := by
  unfold FilteredDialogueStore.getSize matching
  exact count_if_eq_length_filter _ S

theorem matching_append (filter : DialogueType) (l₁ l₂ : List Dialogue) :
    matching filter (l₁ ++ l₂) = matching filter l₁ ++ matching filter l₂ := by
  simp [matching]

theorem matching_cons_of_eq (filter : DialogueType) (d : Dialogue) (l : List Dialogue)
    (h : d.mType = filter) : matching filter (d :: l) = d :: matching filter l := by
  simp [matching, h]

theorem matching_cons_of_ne (filter : DialogueType) (d : Dialogue) (l : List Dialogue)
    (h : d.mType ≠ filter) : matching filter (d :: l) = matching filter l := by
  simp [matching, h]

theorem getElem?_append_cons_length {α : Type} (pre : List α) (d : α) (tail : List α) :
    (pre ++ d :: tail)[pre.length]? = some d := by
  induction pre with
  | nil => simp
  | cons x xs ih => simpa using ih

theorem AtMatch.deref_eq {filter : DialogueType} {S : Store} {pos j : Nat} {d : Dialogue}
    {tail : List Dialogue} (h : AtMatch filter S pos j d tail) : deref S pos = .ok d := by
  obtain ⟨pre, hS, hpos, -, -⟩ := h
  subst hS hpos
  simp only [deref, getElem?_append_cons_length]

theorem AtMatch.drop_eq {filter : DialogueType} {S : Store} {pos j : Nat} {d : Dialogue}
    {tail : List Dialogue} (h : AtMatch filter S pos j d tail) : S.drop (pos + 1) = tail := by
  obtain ⟨pre, hS, hpos, -, -⟩ := h
  subst hS hpos
  rw [List.drop_append_eq_append_drop]
  simp

theorem AtMatch.lt_length {filter : DialogueType} {S : Store} {pos j : Nat} {d : Dialogue}
    {tail : List Dialogue} (h : AtMatch filter S pos j d tail) : pos < S.length := by
  obtain ⟨pre, hS, hpos, -, -⟩ := h
  subst hS hpos
  simp

theorem AtMatch.matching_getElem {filter : DialogueType} {S : Store} {pos j : Nat}
    {d : Dialogue} {tail : List Dialogue} (h : AtMatch filter S pos j d tail) :
    (matching filter S)[j]? = some d := by
  obtain ⟨pre, hS, -, hd, hj⟩ := h
  subst hS hj
  rw [matching_append, matching_cons_of_eq filter d tail hd]
  exact getElem?_append_cons_length _ _ _

theorem AtMatch.length_matching {filter : DialogueType} {S : Store} {pos j : Nat}
    {d : Dialogue} {tail : List Dialogue} (h : AtMatch filter S pos j d tail) :
    (matching filter S).length = j + 1 + (matching filter tail).length := by
  obtain ⟨pre, hS, -, hd, hj⟩ := h
  subst hS hj
  rw [matching_append, matching_cons_of_eq filter d tail hd]
  simp
  omega

/-- The loop of `operator++` faults exactly when no record of the filter type is left. -/
theorem incrementLoop_of_matching_nil (filter : DialogueType) (rest : List Dialogue) (pos : Nat)
    (h : matching filter rest = []) :
    FilteredDialogueStore.incrementLoop filter rest pos = .error .endDereferenced := by
  induction rest generalizing pos with
  | nil => rfl
  | cons d rest ih =>
    by_cases hd : d.mType = filter
    · rw [matching_cons_of_eq filter d rest hd] at h
      exact absurd h (by simp)
    · rw [matching_cons_of_ne filter d rest hd] at h
      simp only [FilteredDialogueStore.incrementLoop, ne_eq, hd, not_false_eq_true, if_true]
      exact ih (pos + 1) h

/-- The loop of `operator++` stops on the first record of the filter type that is left. -/
theorem incrementLoop_of_matching_cons (filter : DialogueType) (rest : List Dialogue) (pos : Nat)
    (x : Dialogue) (xs : List Dialogue) (h : matching filter rest = x :: xs) :
    ∃ skipped tail, rest = skipped ++ x :: tail ∧ matching filter skipped = [] ∧
      x.mType = filter ∧ matching filter tail = xs ∧
      FilteredDialogueStore.incrementLoop filter rest pos = .ok (pos + 1 + skipped.length) := by
  induction rest generalizing pos with
  | nil => simp [matching] at h
  | cons d rest ih =>
    by_cases hd : d.mType = filter
    · rw [matching_cons_of_eq filter d rest hd] at h
      obtain ⟨rfl, rfl⟩ := List.cons.inj h
      exact ⟨[], rest, rfl, rfl, hd, rfl, by simp [FilteredDialogueStore.incrementLoop, hd]⟩
    · rw [matching_cons_of_ne filter d rest hd] at h
      obtain ⟨skipped, tail, hrest, hskip, hx, htail, hloop⟩ := ih (pos + 1) h
      refine ⟨d :: skipped, tail, by simp [hrest], ?_, hx, htail, ?_⟩
      · rw [matching_cons_of_ne filter d skipped hd]; exact hskip
      · simp only [FilteredDialogueStore.incrementLoop, ne_eq, hd, not_false_eq_true, if_true]
        rw [hloop]
        simp only [List.length_cons]
        congr 1
        omega

/-- From a record of the filter type, `operator++` moves to the next record of the filter
type when there is one. -/
theorem increment_of_matching_cons {filter : DialogueType} {S : Store} {pos j : Nat}
    {d : Dialogue} {tail : List Dialogue} (h : AtMatch filter S pos j d tail)
    (x : Dialogue) (xs : List Dialogue) (hx : matching filter tail = x :: xs) :
    ∃ pos' tail', FilteredDialogueStore.increment filter S pos = .ok pos' ∧
      AtMatch filter S pos' (j + 1) x tail' ∧ matching filter tail' = xs := by
  obtain ⟨skipped, tail', htail, hskip, hxt, hxs, hloop⟩ :=
    incrementLoop_of_matching_cons filter tail pos x xs hx
  refine ⟨pos + 1 + skipped.length, tail', ?_, ?_, hxs⟩
  · unfold FilteredDialogueStore.increment
    rw [h.drop_eq]
    exact hloop
  · obtain ⟨pre, hS, hpos, hd, hj⟩ := h
    refine ⟨pre ++ d :: skipped, ?_, ?_, hxt, ?_⟩
    · rw [hS, htail]; simp
    · rw [hpos]; simp; omega
    · rw [matching_append, matching_cons_of_eq filter d skipped hd, hskip]
      simp [hj]

/-- From the last record of the filter type, `operator++` reads the end position. -/
theorem increment_of_matching_nil {filter : DialogueType} {S : Store} {pos j : Nat}
    {d : Dialogue} {tail : List Dialogue} (h : AtMatch filter S pos j d tail)
    (hx : matching filter tail = []) :
    FilteredDialogueStore.increment filter S pos = .error .endDereferenced := by
  unfold FilteredDialogueStore.increment
  rw [h.drop_eq]
  exact incrementLoop_of_matching_nil filter tail pos hx

/-- Calling `std::advance` by `k` from the `j`-th record of the filter type arrives at the
`(j + k)`-th one, when there is one. -/
theorem advance_of_AtMatch {filter : DialogueType} {S : Store} (k : Nat) {pos j : Nat}
    {d : Dialogue} {tail : List Dialogue} (h : AtMatch filter S pos j d tail)
    (hk : j + k < (matching filter S).length) :
    ∃ pos' d' tail', FilteredDialogueStore.advance filter S k pos = .ok pos' ∧
      AtMatch filter S pos' (j + k) d' tail' := by
  induction k generalizing pos j d tail with
  | zero => exact ⟨pos, d, tail, rfl, h⟩
  | succ k ih =>
    have hlen := h.length_matching
    cases hx : matching filter tail with
    | nil => rw [hx] at hlen; simp at hlen; omega
    | cons x xs =>
      obtain ⟨pos', tail', hinc, hat, -⟩ := increment_of_matching_cons h x xs hx
      obtain ⟨pos'', d'', tail'', hadv, hat'⟩ := ih hat (by omega)
      refine ⟨pos'', d'', tail'', ?_, ?_⟩
      · simp only [FilteredDialogueStore.advance, hinc]
        exact hadv
      · have : j + 1 + k = j + (k + 1) := by omega
        rw [← this]
        exact hat'

/-- The loop of `begin()` stops at once on a record of the filter type. -/
theorem beginLoop_of_AtMatch {filter : DialogueType} {S : Store} {pos j : Nat}
    {d : Dialogue} {tail : List Dialogue} (h : AtMatch filter S pos j d tail) (fuel : Nat) :
    FilteredDialogueStore.beginLoop filter S (fuel + 1) pos = .ok pos := by
  have hlt := h.lt_length
  have hne : pos ≠ S.length := by omega
  obtain ⟨pre, hS, hpos, hd, hj⟩ := id h
  simp only [FilteredDialogueStore.beginLoop, FilteredDialogueStore.«end», h.deref_eq]
  simp [hne, hd]

/-- Calling `begin()` on the empty store is `end()`. -/
theorem begin_nil (filter : DialogueType) :
    FilteredDialogueStore.«begin» filter [] = .ok (FilteredDialogueStore.«end» []) := rfl

/-- Calling `begin()` returns the position of the first record of the filter type when there is
one. -/
theorem begin_of_matching_cons (filter : DialogueType) (S : Store) (x : Dialogue)
    (xs : List Dialogue) (hx : matching filter S = x :: xs) :
    ∃ pos tail, FilteredDialogueStore.«begin» filter S = .ok pos ∧
      AtMatch filter S pos 0 x tail ∧ matching filter tail = xs := by
  cases S with
  | nil => simp [matching] at hx
  | cons d tl =>
    by_cases hd : d.mType = filter
    · rw [matching_cons_of_eq filter d tl hd] at hx
      obtain ⟨rfl, rfl⟩ := List.cons.inj hx
      refine ⟨0, tl, ?_, ⟨[], rfl, rfl, hd, rfl⟩, rfl⟩
      simp [FilteredDialogueStore.«begin», FilteredDialogueStore.beginLoop,
        FilteredDialogueStore.«end», deref, hd]
    · rw [matching_cons_of_ne filter d tl hd] at hx
      obtain ⟨skipped, tail, htl, hskip, hxt, hxs, hloop⟩ :=
        incrementLoop_of_matching_cons filter tl 0 x xs hx
      have hat : AtMatch filter (d :: tl) (0 + 1 + skipped.length) 0 x tail := by
        refine ⟨d :: skipped, by simp [htl], by simp; omega, hxt, ?_⟩
        rw [matching_cons_of_ne filter d skipped hd, hskip]; rfl
      refine ⟨0 + 1 + skipped.length, tail, ?_, hat, hxs⟩
      have hinc : FilteredDialogueStore.increment filter (d :: tl) 0
          = .ok (0 + 1 + skipped.length) := by
        simpa [FilteredDialogueStore.increment] using hloop
      have h0 : deref (d :: tl) 0 = .ok d := by simp [deref]
      have hne : (0 : Nat) ≠ tl.length + 1 := by omega
      simp only [FilteredDialogueStore.«begin», List.length_cons,
        FilteredDialogueStore.beginLoop, FilteredDialogueStore.«end», h0, hinc]
      rw [if_pos hne, if_pos hd]
      exact beginLoop_of_AtMatch hat tl.length

/-- Calling `begin()` on a non-empty store without a record of the filter type reads the end
position: the body of its loop is the unguarded `operator++`. -/
theorem begin_of_matching_nil (filter : DialogueType) (d : Dialogue) (tl : List Dialogue)
    (hx : matching filter (d :: tl) = []) :
    FilteredDialogueStore.«begin» filter (d :: tl) = .error .endDereferenced := by
  have hd : d.mType ≠ filter := by
    intro hd
    rw [matching_cons_of_eq filter d tl hd] at hx
    exact absurd hx (by simp)
  rw [matching_cons_of_ne filter d tl hd] at hx
  have hinc : FilteredDialogueStore.increment filter (d :: tl) 0
      = .error .endDereferenced := by
    simpa [FilteredDialogueStore.increment] using incrementLoop_of_matching_nil filter tl 0 hx
  simp [FilteredDialogueStore.«begin», FilteredDialogueStore.beginLoop,
    FilteredDialogueStore.«end», deref, hd, hinc]

/-- Method `at` is zero-based: it returns the `index`-th (counted from 0) record of the filter type,
`nullptr` when there are no more than `index` of them; it never faults. -/
theorem at_eq (filter : DialogueType) (S : Store) (index : Nat) :
    FilteredDialogueStore.«at» filter S index = .ok ((matching filter S)[index]?) := by
  unfold FilteredDialogueStore.«at»
  rw [getSize_eq_length_matching]
  by_cases hge : index ≥ (matching filter S).length
  · rw [if_pos hge, List.getElem?_eq_none (by omega)]
  · rw [if_neg hge]
    cases hx : matching filter S with
    | nil => rw [hx] at hge; simp at hge
    | cons x xs =>
      obtain ⟨pos, tail, hbegin, hat, -⟩ := begin_of_matching_cons filter S x xs hx
      obtain ⟨pos', d', tail', hadv, hat'⟩ :=
        advance_of_AtMatch index hat (by omega)
      have hget := hat'.matching_getElem
      rw [Nat.zero_add, hx] at hget
      simp only [hbegin, hadv, hat'.deref_eq, hget]

/-- The integer index metamethod in closed form. -/
theorem index_eq (filter : DialogueType) (S : Store) (i : Nat) :
    FilteredDialogueStore.index filter S i
      = .ok (if i = 0 then none else (matching filter S)[i - 1]?) := by
  unfold FilteredDialogueStore.index
  rw [getSize_eq_length_matching]
  by_cases h : i = 0 ∨ i > (matching filter S).length
  · rw [if_pos h]
    rcases h with h | h
    · rw [if_pos h]
    · by_cases h0 : i = 0
      · rw [if_pos h0]
      · rw [if_neg h0, List.getElem?_eq_none (by omega)]
  · rw [if_neg h, at_eq]
    have h0 : i ≠ 0 := fun h0 => h (Or.inl h0)
    rw [if_neg h0]

/-- From a record of the filter type on, the client loop faults at its last `++it`, whatever
it has yielded before. -/
theorem iterateLoop_of_AtMatch {filter : DialogueType} {S : Store} (fuel : Nat) {pos j : Nat}
    {d : Dialogue} {tail : List Dialogue} (h : AtMatch filter S pos j d tail)
    (hfuel : (matching filter tail).length < fuel) :
    FilteredDialogueStore.iterateLoop filter S fuel pos = .error .endDereferenced := by
  induction fuel generalizing pos j d tail with
  | zero => omega
  | succ fuel ih =>
    have hlt := h.lt_length
    have hne : pos ≠ S.length := by omega
    simp only [FilteredDialogueStore.iterateLoop, FilteredDialogueStore.«end», h.deref_eq]
    rw [if_pos hne]
    cases hx : matching filter tail with
    | nil => simp only [increment_of_matching_nil h hx]
    | cons x xs =>
      obtain ⟨pos', tail', hinc, hat, hxs⟩ := increment_of_matching_cons h x xs hx
      rw [hx] at hfuel
      simp only [List.length_cons] at hfuel
      simp only [hinc, ih hat (by rw [hxs]; omega)]

/-- Iteration of the filtered view reaches `end()` only over the empty store. -/
theorem iterate_eq (filter : DialogueType) (S : Store) :
    FilteredDialogueStore.iterate filter S
      = if S = [] then .ok [] else .error .endDereferenced := by
  cases S with
  | nil => rfl
  | cons d tl =>
    rw [if_neg (by simp)]
    cases hx : matching filter (d :: tl) with
    | nil => simp only [FilteredDialogueStore.iterate, begin_of_matching_nil filter d tl hx]
    | cons x xs =>
      obtain ⟨pos, tail, hbegin, hat, -⟩ := begin_of_matching_cons filter (d :: tl) x xs hx
      simp only [FilteredDialogueStore.iterate, hbegin]
      apply iterateLoop_of_AtMatch _ hat
      have h1 := hat.length_matching
      have h2 : (matching filter (d :: tl)).length ≤ (d :: tl).length := by
        unfold matching
        exact List.length_filter_le _ _
      omega

/-- With identities that are keys of the store, the store's search finds a record exactly
when the store holds it under the identity searched for. -/
theorem Store.search_exact (S : Store) (hkey : (S.map (fun r => r.mId)).Nodup)
    (id : RefId) (r : Dialogue) :
    S.search id = some r ↔ r ∈ S ∧ r.mId = id := by
  unfold Store.search
  induction S with
  | nil => simp
  | cons d tl ih =>
    rw [List.map_cons, List.nodup_cons] at hkey
    by_cases hd : d.mId = id
    · simp only [List.find?_cons, hd, beq_self_eq_true, Option.some.injEq, List.mem_cons]
      constructor
      · rintro rfl; exact ⟨Or.inl rfl, hd⟩
      · rintro ⟨h | h, hr⟩
        · exact h.symm
        · exfalso
          apply hkey.1
          rw [List.mem_map]
          exact ⟨r, h, by rw [hr, hd]⟩
    · have hbeq : (d.mId == id) = false := by simpa using hd
      simp only [List.find?_cons, hbeq, List.mem_cons]
      rw [ih hkey.2]
      constructor
      · rintro ⟨h, hr⟩; exact ⟨Or.inr h, hr⟩
      · rintro ⟨h | h, hr⟩
        · subst h; exact absurd hr hd
        · exact ⟨h, hr⟩

/-- The loop of `operator++` in closed form: a fault when no record of the filter type is
left, otherwise the position of the first one. -/
theorem incrementLoop_eq (filter : DialogueType) (rest : List Dialogue) (pos : Nat) :
    FilteredDialogueStore.incrementLoop filter rest pos
      = if matching filter rest = [] then .error .endDereferenced
        else .ok (pos + 1 + rest.findIdx (fun d => decide (d.mType = filter))) := by
  induction rest generalizing pos with
  | nil => rfl
  | cons d rest ih =>
    by_cases hd : d.mType = filter
    · rw [matching_cons_of_eq filter d rest hd, if_neg (by simp)]
      simp [FilteredDialogueStore.incrementLoop, hd, List.findIdx_cons]
    · rw [matching_cons_of_ne filter d rest hd]
      simp only [FilteredDialogueStore.incrementLoop, ne_eq, hd, not_false_eq_true, if_true]
      rw [ih (pos + 1)]
      by_cases hm : matching filter rest = []
      · rw [if_pos hm, if_pos hm]
      · rw [if_neg hm, if_neg hm]
        simp only [List.findIdx_cons, hd, decide_False, cond_false]
        congr 1
        omega

/-- A record of the filter type that no record of the filter type precedes stands at the
position `findIdx` computes. -/
theorem AtMatch.findIdx_eq {filter : DialogueType} {S : Store} {pos : Nat} {d : Dialogue}
    {tail : List Dialogue} (h : AtMatch filter S pos 0 d tail) :
    S.findIdx (fun d => decide (d.mType = filter)) = pos := by
  obtain ⟨pre, hS, hpos, hd, hj⟩ := h
  subst hS hpos
  induction pre with
  | nil => simp [List.findIdx_cons, hd]
  | cons x xs ih =>
    by_cases hx : x.mType = filter
    · rw [matching_cons_of_eq filter x xs hx] at hj
      simp at hj
    · rw [matching_cons_of_ne filter x xs hx] at hj
      simp only [List.cons_append, List.findIdx_cons, hx, decide_False, cond_false,
        List.length_cons]
      rw [ih hj]

/-- The closed form of `begin()`: `end()` on the empty store, a fault on a non-empty store
without a record of the filter type, otherwise the position of the first such record. -/
theorem begin_eq (filter : DialogueType) (S : Store) :
    FilteredDialogueStore.«begin» filter S
      = if S = [] then .ok (FilteredDialogueStore.«end» S)
        else if matching filter S = [] then .error .endDereferenced
        else .ok (S.findIdx (fun d => decide (d.mType = filter))) := by
  cases S with
  | nil => rfl
  | cons d tl =>
    rw [if_neg (by simp)]
    cases hx : matching filter (d :: tl) with
    | nil => rw [if_pos rfl]; exact begin_of_matching_nil filter d tl hx
    | cons x xs =>
      rw [if_neg (by simp)]
      obtain ⟨pos, tail, hbegin, hat, -⟩ := begin_of_matching_cons filter (d :: tl) x xs hx
      rw [hbegin, hat.findIdx_eq]

/-- The `(n+1)`-fold `std::advance` is the `n`-fold one followed by one more `++`. -/
theorem advance_succ (filter : DialogueType) (S : Store) (n pos : Nat) :
    FilteredDialogueStore.advance filter S (n + 1) pos
      = match FilteredDialogueStore.advance filter S n pos with
        | .ok pos' => FilteredDialogueStore.increment filter S pos'
        | .error e => .error e := by
  induction n generalizing pos with
  | zero =>
    simp only [FilteredDialogueStore.advance]
    cases FilteredDialogueStore.increment filter S pos <;> rfl
  | succ n ih =>
    rw [FilteredDialogueStore.advance]
    cases hinc : FilteredDialogueStore.increment filter S pos with
    | error e => simp only [FilteredDialogueStore.advance, hinc]
    | ok pos' =>
      simp only []
      rw [ih pos']
      simp only [FilteredDialogueStore.advance, hinc]

/-- The loop of the `questName` property finds the first child with status `QS_Name`. -/
theorem questNameLoop_eq (infos : List DialInfo) :
    Dialogue.questNameLoop infos
      = (infos.find? (fun info => decide (info.mQuestStatus = .QS_Name))).map
          (fun info => info.mResponse) := by
  induction infos with
  | nil => rfl
  | cons info rest ih =>
    by_cases h : info.mQuestStatus = .QS_Name
    · simp [Dialogue.questNameLoop, h]
    · simp [Dialogue.questNameLoop, h, ih]

theorem AtMatch.type_eq {filter : DialogueType} {S : Store} {pos j : Nat} {d : Dialogue}
    {tail : List Dialogue} (h : AtMatch filter S pos j d tail) : d.mType = filter := by
  obtain ⟨pre, -, -, hd, -⟩ := h
  exact hd

/-! ## The claims -/

/-- C1: the integer overload of the index metamethod of the filtered store is 1-based.
For every store content, filter and index `i`: when `1 ≤ i ≤ getSize()` it returns the
`i`-th record (counted from 1) of the records of the filter type in store order; when
`i = 0` or `i > getSize()` it returns absent.  In both cases it returns without reading
the end position. -/
theorem index_one_based (filter : DialogueType) (S : Store) (i : Nat) :
    (1 ≤ i → i ≤ FilteredDialogueStore.getSize filter S →
      ∃ r, (S.filter (fun d => decide (d.mType = filter)))[i - 1]? = some r ∧
        FilteredDialogueStore.index filter S i = .ok (some r)) ∧
    (i = 0 ∨ FilteredDialogueStore.getSize filter S < i →
      FilteredDialogueStore.index filter S i = .ok none) := by
  have hidx := index_eq filter S i
  have hsize := getSize_eq_length_matching filter S
  constructor
  · intro h1 h2
    have hlt : i - 1 < (matching filter S).length := by omega
    refine ⟨(matching filter S)[i - 1], ?_, ?_⟩
    · exact List.getElem?_eq_getElem hlt
    · rw [hidx, if_neg (by omega), List.getElem?_eq_getElem hlt]
  · intro h
    rw [hidx]
    rcases h with h | h
    · rw [if_pos h]
    · rw [if_neg (by omega), List.getElem?_eq_none (by omega)]

/-- Witness of C1 on the scenario store: index 2 of the Topic view is in range, indices 0
and 3 are out of range. -/
theorem index_one_based_witness :
    (∃ r, (scenarioStore.filter (fun d => decide (d.mType = DialogueType.Topic)))[2 - 1]? = some r ∧
        FilteredDialogueStore.index .Topic scenarioStore 2 = .ok (some r)) ∧
      FilteredDialogueStore.index .Topic scenarioStore 0 = .ok none ∧
      FilteredDialogueStore.index .Topic scenarioStore 3 = .ok none :=
  ⟨(index_one_based .Topic scenarioStore 2).1 (by decide) (by decide),
   (index_one_based .Topic scenarioStore 0).2 (Or.inl rfl),
   (index_one_based .Topic scenarioStore 3).2 (Or.inr (by decide))⟩

/-- C2: for every store content and filter, `getSize()`, and with it the length metamethod,
is the number of records of the store whose type is the filter. -/
theorem getSize_eq_count (filter : DialogueType) (S : Store) :
    FilteredDialogueStore.getSize filter S = S.countP (fun d => decide (d.mType = filter)) ∧
    FilteredDialogueStore.length filter S = S.countP (fun d => decide (d.mType = filter)) := by
  have h := getSize_eq_length_matching filter S
  unfold matching at h
  rw [← List.countP_eq_length_filter] at h
  exact ⟨h, h⟩

/-- C3: with identities that are keys of the store (so that the backing search returns the
record of an identity exactly when there is one), `search(id)` of the filtered store returns
a record `r` exactly when the store holds `r` under the identity `id` and `r` is of the filter
type; a record with the identity but of another type gives absent. -/
theorem search_eq_some_iff (filter : DialogueType) (S : Store)
    (hkey : (S.map (fun r => r.mId)).Nodup) (id : RefId) (r : Dialogue) :
    (FilteredDialogueStore.search filter S id = some r ↔
      r ∈ S ∧ r.mId = id ∧ r.mType = filter) ∧
    (r ∈ S → r.mId = id → r.mType ≠ filter →
      FilteredDialogueStore.search filter S id = none) := by
  have hs := Store.search_exact S hkey id
  unfold FilteredDialogueStore.search FilteredDialogueStore.foundDialogueFilteredOut
  constructor
  · cases hfound : S.search id with
    | none =>
      constructor
      · intro h; exact absurd h (by simp)
      · rintro ⟨hmem, hid, -⟩
        have := (hs r).2 ⟨hmem, hid⟩
        rw [hfound] at this
        exact absurd this (by simp)
    | some d =>
      have hd := (hs d).1 hfound
      by_cases hty : d.mType = filter
      · simp only [hty, if_true, Option.some.injEq]
        constructor
        · rintro rfl; exact ⟨hd.1, hd.2, hty⟩
        · rintro ⟨hmem, hid, -⟩
          have := (hs r).2 ⟨hmem, hid⟩
          rw [hfound] at this
          exact Option.some.inj this
      · simp only [hty, if_false]
        constructor
        · intro h; exact absurd h (by simp)
        · rintro ⟨hmem, hid, hr⟩
          have := (hs r).2 ⟨hmem, hid⟩
          rw [hfound] at this
          rw [← Option.some.inj this] at hr
          exact absurd hr hty
  · intro hmem hid hty
    rw [(hs r).2 ⟨hmem, hid⟩]
    simp only [hty, if_false]

/-- Witness of C3 on the scenario store: "c" is found in the Topic view, and "b", a
Journal, is absent from it. -/
theorem search_eq_some_iff_witness :
    (scenarioStore.map (fun r => r.mId)).Nodup ∧
      FilteredDialogueStore.search .Topic scenarioStore ⟨"c"⟩ = some recC ∧
      FilteredDialogueStore.search .Topic scenarioStore ⟨"b"⟩ = none :=
  ⟨by decide,
   ((search_eq_some_iff .Topic scenarioStore (by decide) ⟨"c"⟩ recC).1).2
     ⟨by decide, rfl, rfl⟩,
   (search_eq_some_iff .Topic scenarioStore (by decide) ⟨"b"⟩ recB).2
     (by decide) rfl (by decide)⟩

/-- C4: over the store holding the single Topic record "a", the Topic view has size 1 and
its positional access 0 returns "a", but iterating it from `begin()` with `operator++` until
`end()` reads the end position in the `++` that follows "a" and never reaches `end()`; and
so does the iteration of every view over every non-empty store. -/
theorem iterate_reads_end :
    FilteredDialogueStore.getSize .Topic [recA] = 1 ∧
    FilteredDialogueStore.«at» .Topic [recA] 0 = .ok (some recA) ∧
    FilteredDialogueStore.«begin» .Topic [recA] = .ok 0 ∧
    FilteredDialogueStore.increment .Topic [recA] 0 = .error .endDereferenced ∧
    FilteredDialogueStore.iterate .Topic [recA] = .error .endDereferenced ∧
    (∀ (filter : DialogueType) (S : Store),
      FilteredDialogueStore.iterate filter S
        = if S = [] then .ok [] else .error .endDereferenced) := by
  refine ⟨by decide, by decide, by decide, by decide, by decide, ?_⟩
  intro filter S
  exact iterate_eq filter S

/-- C10, as stated, fails: on the scenario store `at(0)` of the Topic view is the record
"a", not absent, and `at(2)`, with `getSize() = 2`, is absent, not the record "c". -/
theorem at_one_based_counterexample :
    FilteredDialogueStore.«at» .Topic scenarioStore 0 = .ok (some recA) ∧
    FilteredDialogueStore.«at» .Topic scenarioStore 0 ≠ .ok none ∧
    FilteredDialogueStore.getSize .Topic scenarioStore = 2 ∧
    (matching .Topic scenarioStore)[2 - 1]? = some recC ∧
    FilteredDialogueStore.«at» .Topic scenarioStore 2 = .ok none := by
  decide

/-- C10, amended: `at` takes a 0-based index.  For every store content, filter and index
`k`: when `k < getSize()` it returns the `k`-th record, counted from 0, of the records of the
filter type in store order; when `k ≥ getSize()` it returns absent. -/
theorem at_zero_based (filter : DialogueType) (S : Store) (k : Nat) :
    (k < FilteredDialogueStore.getSize filter S →
      ∃ r, (S.filter (fun d => decide (d.mType = filter)))[k]? = some r ∧
        FilteredDialogueStore.«at» filter S k = .ok (some r)) ∧
    (FilteredDialogueStore.getSize filter S ≤ k →
      FilteredDialogueStore.«at» filter S k = .ok none) := by
  have hat := at_eq filter S k
  have hsize := getSize_eq_length_matching filter S
  constructor
  · intro h
    have hlt : k < (matching filter S).length := by omega
    exact ⟨(matching filter S)[k], List.getElem?_eq_getElem hlt,
      by rw [hat, List.getElem?_eq_getElem hlt]⟩
  · intro h
    rw [hat, List.getElem?_eq_none (by omega)]

/-- Witness of the amended C10 on the scenario store: `at(1)` of the Topic view is in
range, `at(2)` is not. -/
theorem at_zero_based_witness :
    (∃ r, (scenarioStore.filter (fun d => decide (d.mType = DialogueType.Topic)))[1]? = some r ∧
        FilteredDialogueStore.«at» .Topic scenarioStore 1 = .ok (some r)) ∧
      FilteredDialogueStore.«at» .Topic scenarioStore 2 = .ok none :=
  ⟨(at_zero_based .Topic scenarioStore 1).1 (by decide),
   (at_zero_based .Topic scenarioStore 2).2 (by decide)⟩

/-- C5: when the store's search does not find the parent identity `P`, the secondary
projection `DialogueInfos{P}` has length 0, its index metamethod returns absent for every
index (0 included) without faulting, and its string conversion is nil. -/
theorem infos_of_missing_parent (toDebugString : RefId → String) (S : Store) (P : RefId)
    (hP : S.search P = none) (i : Nat) :
    DialogueInfos.length { mDialogueRecordId := P } S = 0 ∧
    DialogueInfos.index { mDialogueRecordId := P } S i = .ok none ∧
    DialogueInfos.to_string toDebugString { mDialogueRecordId := P } S = none := by
  simp only [DialogueInfos.length, DialogueInfos.index, DialogueInfos.to_string,
    DialogueInfos.getDialogueRecord, hP, and_self]

/-- Witness of C5: the scenario store has no record "zz"; the projection built from it is
empty at index 1. -/
theorem infos_of_missing_parent_witness :
    scenarioStore.search ⟨"zz"⟩ = none ∧
      DialogueInfos.length { mDialogueRecordId := ⟨"zz"⟩ } scenarioStore = 0 ∧
      DialogueInfos.index { mDialogueRecordId := ⟨"zz"⟩ } scenarioStore 1 = .ok none ∧
      DialogueInfos.to_string RefId.serializeText { mDialogueRecordId := ⟨"zz"⟩ } scenarioStore
        = none :=
  ⟨by decide, infos_of_missing_parent RefId.serializeText scenarioStore ⟨"zz"⟩ (by decide) 1⟩

/-- C6: when the store's search resolves the parent identity `P` to the record `r`, the
length of `DialogueInfos{P}` is the number of children of `r`; index `i` with
`1 ≤ i ≤ n` returns the `(i-1)`-th element of `r.mInfo` in list order; index 0 and every
index above `n` return absent.  No index faults. -/
theorem infos_of_found_parent (S : Store) (P : RefId) (r : Dialogue)
    (hP : S.search P = some r) (i : Nat) :
    DialogueInfos.length { mDialogueRecordId := P } S = r.mInfo.length ∧
    (1 ≤ i → i ≤ r.mInfo.length →
      ∃ info, r.mInfo[i - 1]? = some info ∧
        DialogueInfos.index { mDialogueRecordId := P } S i = .ok (some info)) ∧
    (i = 0 ∨ r.mInfo.length < i →
      DialogueInfos.index { mDialogueRecordId := P } S i = .ok none) := by
  refine ⟨?_, ?_, ?_⟩
  · simp only [DialogueInfos.length, DialogueInfos.getDialogueRecord, hP]
  · intro h1 h2
    have hlt : i - 1 < r.mInfo.length := by omega
    refine ⟨r.mInfo[i - 1], List.getElem?_eq_getElem hlt, ?_⟩
    have hguard : ¬ (i = 0 ∨ i > r.mInfo.length) := by omega
    simp only [DialogueInfos.index, DialogueInfos.getDialogueRecord, hP, if_neg hguard,
      Nat.zero_add, List.getElem?_eq_getElem hlt]
  · intro h
    have hguard : i = 0 ∨ i > r.mInfo.length := by omega
    simp only [DialogueInfos.index, DialogueInfos.getDialogueRecord, hP, if_pos hguard]

/-- Witness of C6: the scenario store resolves "b" to a record with two children; index 2
is in range, indices 0 and 3 are not. -/
theorem infos_of_found_parent_witness :
    scenarioStore.search ⟨"b"⟩ = some recB ∧
      DialogueInfos.length { mDialogueRecordId := ⟨"b"⟩ } scenarioStore = recB.mInfo.length ∧
      (∃ info, recB.mInfo[2 - 1]? = some info ∧
        DialogueInfos.index { mDialogueRecordId := ⟨"b"⟩ } scenarioStore 2 = .ok (some info)) ∧
      DialogueInfos.index { mDialogueRecordId := ⟨"b"⟩ } scenarioStore 0 = .ok none ∧
      DialogueInfos.index { mDialogueRecordId := ⟨"b"⟩ } scenarioStore 3 = .ok none :=
  ⟨by decide,
   (infos_of_found_parent scenarioStore ⟨"b"⟩ recB (by decide) 2).1,
   (infos_of_found_parent scenarioStore ⟨"b"⟩ recB (by decide) 2).2.1 (by decide) (by decide),
   (infos_of_found_parent scenarioStore ⟨"b"⟩ recB (by decide) 0).2.2 (Or.inl rfl),
   (infos_of_found_parent scenarioStore ⟨"b"⟩ recB (by decide) 3).2.2 (Or.inr (by decide))⟩

/-- C7: for every child record, each of `questStage`, `questFinished` and `questRestart`
is present exactly when the record's `mData.mType` is Journal, and then `questStage` is
`mData.mJournalIndex`, `questFinished` is `mQuestStatus == QS_Finished` and `questRestart`
is `mQuestStatus == QS_Restart`. -/
theorem quest_properties (rec : DialInfo) :
    (rec.questStage.isSome ↔ rec.mData.mType = .Journal) ∧
    (rec.questFinished.isSome ↔ rec.mData.mType = .Journal) ∧
    (rec.questRestart.isSome ↔ rec.mData.mType = .Journal) ∧
    (rec.mData.mType = .Journal →
      rec.questStage = some rec.mData.mJournalIndex ∧
      rec.questFinished = some (decide (rec.mQuestStatus = .QS_Finished)) ∧
      rec.questRestart = some (decide (rec.mQuestStatus = .QS_Restart))) := by
  unfold DialInfo.questStage DialInfo.questFinished DialInfo.questRestart
  by_cases h : rec.mData.mType = .Journal
  · simp [h]
  · simp [h]

/-- Witness of C7: the scenario's Journal child has `questStage` 5, `questFinished` true
and `questRestart` false. -/
theorem quest_properties_witness :
    journalInfo.questStage = some 5 ∧ journalInfo.questFinished = some true ∧
      journalInfo.questRestart = some false :=
  (quest_properties journalInfo).2.2.2 rfl

/-- C8: for every child record whose `mData.mType` is Journal, the ten filter properties
and the sound property are absent, whatever the underlying fields hold. -/
theorem filters_absent_of_journal (normalized correctSoundPath : String → String)
    (rec : DialInfo) (h : rec.mData.mType = .Journal) :
    rec.filterActorId = none ∧ rec.filterActorRace = none ∧ rec.filterActorClass = none ∧
    rec.filterActorFaction = none ∧ rec.filterActorFactionRank = none ∧
    rec.filterActorCell = none ∧ rec.filterActorDisposition = none ∧
    rec.filterActorGender = none ∧ rec.filterPlayerFaction = none ∧
    rec.filterPlayerFactionRank = none ∧
    rec.sound normalized correctSoundPath = none := by
  simp [DialInfo.filterActorId, DialInfo.filterActorRace, DialInfo.filterActorClass,
    DialInfo.filterActorFaction, DialInfo.filterActorFactionRank, DialInfo.filterActorCell,
    DialInfo.filterActorDisposition, DialInfo.filterActorGender, DialInfo.filterPlayerFaction,
    DialInfo.filterPlayerFactionRank, DialInfo.sound, h]

/-- Witness of C8: the scenario's Journal child carries an actor, ranks, a gender and a
sound, and shows none of them. -/
theorem filters_absent_of_journal_witness :
    journalInfo.filterActorId = none ∧ journalInfo.filterActorRace = none ∧
    journalInfo.filterActorClass = none ∧ journalInfo.filterActorFaction = none ∧
    journalInfo.filterActorFactionRank = none ∧ journalInfo.filterActorCell = none ∧
    journalInfo.filterActorDisposition = none ∧ journalInfo.filterActorGender = none ∧
    journalInfo.filterPlayerFaction = none ∧ journalInfo.filterPlayerFactionRank = none ∧
    journalInfo.sound id id = none :=
  filters_absent_of_journal id id journalInfo rfl

/-- C9: for every child record whose `mData.mType` is not Journal, each of
`filterActorFactionRank` (raw `mData.mRank`), `filterActorGender` (raw `mData.mGender`) and
`filterPlayerFactionRank` (raw `mData.mPCrank`) is absent exactly when its raw value is -1,
and for every other raw value is present and equal to it. -/
theorem sentinel_properties (rec : DialInfo) (h : rec.mData.mType ≠ .Journal) :
    (rec.filterActorFactionRank = none ↔ rec.mData.mRank = -1) ∧
    (rec.mData.mRank ≠ -1 → rec.filterActorFactionRank = some rec.mData.mRank) ∧
    (rec.filterActorGender = none ↔ rec.mData.mGender = -1) ∧
    (rec.mData.mGender ≠ -1 → rec.filterActorGender = some rec.mData.mGender) ∧
    (rec.filterPlayerFactionRank = none ↔ rec.mData.mPCrank = -1) ∧
    (rec.mData.mPCrank ≠ -1 → rec.filterPlayerFactionRank = some rec.mData.mPCrank) := by
  unfold DialInfo.filterActorFactionRank DialInfo.filterActorGender
    DialInfo.filterPlayerFactionRank
  simp only [if_neg h]
  refine ⟨?_, ?_, ?_, ?_, ?_, ?_⟩
  · by_cases hr : rec.mData.mRank = -1 <;> simp [hr]
  · intro hr; simp [hr]
  · by_cases hr : rec.mData.mGender = -1 <;> simp [hr]
  · intro hr; simp [hr]
  · by_cases hr : rec.mData.mPCrank = -1 <;> simp [hr]
  · intro hr; simp [hr]

/-- Witness of C9: a Topic child with `mRank = -1` shows no faction rank, one with
`mRank = 3` shows 3. -/
theorem sentinel_properties_witness :
    (blankInfo .Topic).filterActorFactionRank = none ∧
      topicInfo.filterActorFactionRank = some 3 ∧
      topicInfo.filterActorGender = none :=
  ⟨(sentinel_properties (blankInfo .Topic) (by decide)).1.2 rfl,
   (sentinel_properties topicInfo (by decide)).2.1 (by decide),
   (sentinel_properties topicInfo (by decide)).2.2.1.2 rfl⟩

/-- C11: over the store holding the single Topic record "a", `operator++` (prefix and
postfix) applied to the iterator on "a" does not move to `end()`: after the advance it reads
the record at the end position.  On the scenario store the `++` from "a" does move to the
next Topic record "c", and the `++` from "c" reads the end position.  In general either
form of `operator++` moves to the first later record of the filter type when there is one
and reads the end position when there is none. -/
theorem increment_reads_end :
    FilteredDialogueStore.«end» [recA] = 1 ∧
    FilteredDialogueStore.increment .Topic [recA] 0 = .error .endDereferenced ∧
    FilteredDialogueStore.postIncrement .Topic [recA] 0 = .error .endDereferenced ∧
    FilteredDialogueStore.increment .Topic scenarioStore 0 = .ok 2 ∧
    FilteredDialogueStore.increment .Topic scenarioStore 2 = .error .endDereferenced ∧
    (∀ (filter : DialogueType) (S : Store) (pos : Nat),
      FilteredDialogueStore.increment filter S pos
        = if matching filter (S.drop (pos + 1)) = [] then .error .endDereferenced
          else .ok (pos + 1
            + (S.drop (pos + 1)).findIdx (fun d => decide (d.mType = filter)))) ∧
    (∀ (filter : DialogueType) (S : Store) (pos : Nat),
      FilteredDialogueStore.postIncrement filter S pos
        = if matching filter (S.drop (pos + 1)) = [] then .error .endDereferenced
          else .ok (pos, pos + 1
            + (S.drop (pos + 1)).findIdx (fun d => decide (d.mType = filter)))) := by
  refine ⟨by decide, by decide, by decide, by decide, by decide, ?_, ?_⟩
  · intro filter S pos
    exact incrementLoop_eq filter (S.drop (pos + 1)) pos
  · intro filter S pos
    unfold FilteredDialogueStore.postIncrement
    rw [incrementLoop_eq]
    by_cases hm : matching filter (S.drop (pos + 1)) = []
    · simp only [if_pos hm]
    · simp only [if_neg hm]

/-- C12, as stated, fails: the blank Topic child is not of kind Journal, and its
`filterActorId` and `filterActorFactionRank` are absent, its actor identity being empty and
its rank -1. -/
theorem filters_present_counterexample :
    (blankInfo .Topic).mData.mType ≠ .Journal ∧
    ¬ (blankInfo .Topic).filterActorId.isSome ∧
    ¬ (blankInfo .Topic).filterActorFactionRank.isSome := by
  decide

/-- C12, amended: for every child record whose `mData.mType` is not Journal, the three
quest properties are absent, `filterActorDisposition` is present, each identity-valued
filter property is present exactly when the serialized text of its identity is not empty,
and each sentinel-coded integer filter property is present exactly when its raw value is
not -1. -/
theorem non_journal_properties (rec : DialInfo) (h : rec.mData.mType ≠ .Journal) :
    rec.questStage = none ∧ rec.questFinished = none ∧ rec.questRestart = none ∧
    rec.filterActorDisposition = some rec.mData.mDisposition ∧
    (rec.filterActorId.isSome ↔ rec.mActor.serializeText ≠ "") ∧
    (rec.filterActorRace.isSome ↔ rec.mRace.serializeText ≠ "") ∧
    (rec.filterActorClass.isSome ↔ rec.mClass.serializeText ≠ "") ∧
    (rec.filterActorFaction.isSome ↔ rec.mFaction.serializeText ≠ "") ∧
    (rec.filterActorCell.isSome ↔ rec.mCell.serializeText ≠ "") ∧
    (rec.filterPlayerFaction.isSome ↔ rec.mPcFaction.serializeText ≠ "") ∧
    (rec.filterActorFactionRank.isSome ↔ rec.mData.mRank ≠ -1) ∧
    (rec.filterActorGender.isSome ↔ rec.mData.mGender ≠ -1) ∧
    (rec.filterPlayerFactionRank.isSome ↔ rec.mData.mPCrank ≠ -1) := by
  unfold DialInfo.questStage DialInfo.questFinished DialInfo.questRestart
    DialInfo.filterActorDisposition DialInfo.filterActorId DialInfo.filterActorRace
    DialInfo.filterActorClass DialInfo.filterActorFaction DialInfo.filterActorCell
    DialInfo.filterPlayerFaction DialInfo.filterActorFactionRank DialInfo.filterActorGender
    DialInfo.filterPlayerFactionRank
  simp only [if_neg h, ne_eq, h, not_false_eq_true, if_true, true_and]
  refine ⟨?_, ?_, ?_, ?_, ?_, ?_, ?_, ?_, ?_⟩
  · by_cases hv : rec.mActor.serializeText = "" <;> simp [hv]
  · by_cases hv : rec.mRace.serializeText = "" <;> simp [hv]
  · by_cases hv : rec.mClass.serializeText = "" <;> simp [hv]
  · by_cases hv : rec.mFaction.serializeText = "" <;> simp [hv]
  · by_cases hv : rec.mCell.serializeText = "" <;> simp [hv]
  · by_cases hv : rec.mPcFaction.serializeText = "" <;> simp [hv]
  · by_cases hv : rec.mData.mRank = -1 <;> simp [hv]
  · by_cases hv : rec.mData.mGender = -1 <;> simp [hv]
  · by_cases hv : rec.mData.mPCrank = -1 <;> simp [hv]

/-- Witness of the amended C12: the Voice child shows no quest stage, shows its
disposition and its actor, and shows neither a race nor a faction rank. -/
theorem non_journal_properties_witness :
    voiceInfo.questStage = none ∧ voiceInfo.filterActorDisposition = some 0 ∧
      voiceInfo.filterActorId.isSome ∧ ¬ voiceInfo.filterActorRace.isSome ∧
      ¬ voiceInfo.filterActorFactionRank.isSome :=
  have h := non_journal_properties voiceInfo (by decide)
  ⟨h.1, h.2.2.2.1, h.2.2.2.2.1.2 (by decide), fun hs => h.2.2.2.2.2.1.1 hs rfl,
   fun hs => h.2.2.2.2.2.2.2.2.2.2.1.1 hs rfl⟩

/-- C13: for every dialogue record, `questName` is absent when the record's type is not
Journal; when it is Journal, `questName` is the response text of the first child, in list
order, whose status is `QS_Name`, and is absent when no child has that status.  The
property is a total function: it never fails. -/
theorem questName_spec (rec : Dialogue) :
    (rec.mType ≠ .Journal → rec.questName = none) ∧
    (rec.mType = .Journal →
      ∀ (before : List DialInfo) (info : DialInfo) (after : List DialInfo),
        rec.mInfo = before ++ info :: after →
        (∀ x ∈ before, x.mQuestStatus ≠ .QS_Name) → info.mQuestStatus = .QS_Name →
        rec.questName = some info.mResponse) ∧
    (rec.mType = .Journal → (∀ x ∈ rec.mInfo, x.mQuestStatus ≠ .QS_Name) →
      rec.questName = none) := by
  unfold Dialogue.questName
  refine ⟨?_, ?_, ?_⟩
  · intro h
    rw [if_pos h]
  · intro h before info after hsplit hbefore hinfo
    rw [if_neg (by simp [h]), hsplit]
    clear hsplit
    induction before with
    | nil => simp [Dialogue.questNameLoop, hinfo]
    | cons x xs ih =>
      have hx : x.mQuestStatus ≠ .QS_Name := hbefore x (by simp)
      simp only [List.cons_append, Dialogue.questNameLoop, hx, if_false]
      exact ih (fun y hy => hbefore y (by simp [hy]))
  · intro h hnone
    rw [if_neg (by simp [h]), questNameLoop_eq]
    have : rec.mInfo.find? (fun info => decide (info.mQuestStatus = .QS_Name)) = none := by
      rw [List.find?_eq_none]
      intro x hx
      simpa using hnone x hx
    rw [this]
    rfl

/-- Witness of C13: the Journal record with children "stage text" (no status), "Quest"
(`QS_Name`) and "Other" (`QS_Name`) has the quest name "Quest"; the Topic record "a" has
none; the Journal record "b", without a `QS_Name` child, has none. -/
theorem questName_spec_witness :
    questRec.questName = some "Quest" ∧ recA.questName = none ∧ recB.questName = none :=
  ⟨(questName_spec questRec).2.1 rfl
      [{ blankInfo .Journal with mResponse := "stage text" }]
      { blankInfo .Journal with mQuestStatus := .QS_Name, mResponse := "Quest" }
      [{ blankInfo .Journal with mQuestStatus := .QS_Name, mResponse := "Other" }]
      rfl (by decide) rfl,
   (questName_spec recA).1 (by decide),
   (questName_spec recB).2.2 rfl (by decide)⟩

/-- C14: for every child record, `sound` is present exactly when `mData.mType` is not
Journal and `mSound` is not the empty string; when present it is the path correction applied
to the normalized `mSound`, so that two such records with the same `mSound` have the same
`sound`. -/
theorem sound_spec (normalized correctSoundPath : String → String) (rec : DialInfo) :
    ((rec.sound normalized correctSoundPath).isSome ↔
      rec.mData.mType ≠ .Journal ∧ rec.mSound ≠ "") ∧
    (rec.mData.mType ≠ .Journal → rec.mSound ≠ "" →
      rec.sound normalized correctSoundPath = some (correctSoundPath (normalized rec.mSound))) ∧
    (∀ other : DialInfo, rec.mData.mType ≠ .Journal → other.mData.mType ≠ .Journal →
      other.mSound = rec.mSound →
      other.sound normalized correctSoundPath = rec.sound normalized correctSoundPath) := by
  unfold DialInfo.sound
  refine ⟨?_, ?_, ?_⟩
  · by_cases h : rec.mData.mType = .Journal ∨ rec.mSound = ""
    · rw [if_pos h]
      simp only [Option.isSome_none, Bool.false_eq_true, ne_eq, false_iff, not_and, not_not]
      intro hty
      rcases h with h | h
      · exact absurd h hty
      · exact h
    · rw [if_neg h]
      simp only [Option.isSome_some, ne_eq, true_iff]
      exact ⟨fun hty => h (Or.inl hty), fun hs => h (Or.inr hs)⟩
  · intro hty hs
    rw [if_neg (by rintro (h | h); exact hty h; exact hs h)]
  · intro other hty hty' hs
    simp only [hs, hty, hty', false_or]

/-- Witness of C14: the Voice child with the sound "vo/a.mp3" shows the corrected path;
a copy of another non-Journal kind with the same sound shows the same. -/
theorem sound_spec_witness :
    voiceInfo.sound asciiUpper (fun s => "sound/" ++ s) = some "sound/VO/A.MP3" ∧
      DialInfo.sound asciiUpper (fun s => "sound/" ++ s)
          { voiceInfo with mData := (blankInfo .Greeting).mData }
        = voiceInfo.sound asciiUpper (fun s => "sound/" ++ s) :=
  ⟨((sound_spec asciiUpper (fun s => "sound/" ++ s) voiceInfo).2.1
      (by decide) (by decide)).trans (by decide),
   (sound_spec asciiUpper (fun s => "sound/" ++ s) voiceInfo).2.2
      { voiceInfo with mData := (blankInfo .Greeting).mData } (by decide) (by decide) rfl⟩

/-- C15: for every child record of every kind, `resultScript` is present exactly when
`mResultScript` is not empty, and is then `mResultScript` unchanged; it is the same whatever
the `mData` block, `mType` included, holds. -/
theorem resultScript_spec (rec : DialInfo) :
    (rec.resultScript.isSome ↔ rec.mResultScript ≠ "") ∧
    (rec.mResultScript ≠ "" → rec.resultScript = some rec.mResultScript) ∧
    (∀ data : DialInfoData,
      DialInfo.resultScript { rec with mData := data } = rec.resultScript) := by
  unfold DialInfo.resultScript
  refine ⟨?_, ?_, ?_⟩
  · by_cases h : rec.mResultScript = "" <;> simp [h]
  · intro h
    rw [if_neg h]
  · intro data
    rfl

/-- Witness of C15: the Voice child shows its result script, and so does the copy of it
of kind Journal. -/
theorem resultScript_spec_witness :
    voiceInfo.resultScript = some "Journal A1 10" ∧
      DialInfo.resultScript { voiceInfo with mData := journalInfo.mData }
        = some "Journal A1 10" :=
  ⟨(resultScript_spec voiceInfo).2.1 (by decide),
   ((resultScript_spec voiceInfo).2.2 journalInfo.mData).trans
     ((resultScript_spec voiceInfo).2.1 (by decide))⟩

/-- C16: for every child record whose `mData.mType` is not Journal, each identity-valued
filter property (`filterActorId` from `mActor`, `filterActorRace` from `mRace`,
`filterActorClass` from `mClass`, `filterActorFaction` from `mFaction`, `filterActorCell`
from `mCell`, `filterPlayerFaction` from `mPcFaction`) is absent exactly when the
serialized text of the identity is the empty string, and is otherwise that text. -/
theorem identity_filter_properties (rec : DialInfo) (h : rec.mData.mType ≠ .Journal) :
    ((rec.filterActorId = none ↔ rec.mActor.serializeText = "") ∧
      (rec.mActor.serializeText ≠ "" → rec.filterActorId = some rec.mActor.serializeText)) ∧
    ((rec.filterActorRace = none ↔ rec.mRace.serializeText = "") ∧
      (rec.mRace.serializeText ≠ "" → rec.filterActorRace = some rec.mRace.serializeText)) ∧
    ((rec.filterActorClass = none ↔ rec.mClass.serializeText = "") ∧
      (rec.mClass.serializeText ≠ "" → rec.filterActorClass = some rec.mClass.serializeText)) ∧
    ((rec.filterActorFaction = none ↔ rec.mFaction.serializeText = "") ∧
      (rec.mFaction.serializeText ≠ "" →
        rec.filterActorFaction = some rec.mFaction.serializeText)) ∧
    ((rec.filterActorCell = none ↔ rec.mCell.serializeText = "") ∧
      (rec.mCell.serializeText ≠ "" → rec.filterActorCell = some rec.mCell.serializeText)) ∧
    ((rec.filterPlayerFaction = none ↔ rec.mPcFaction.serializeText = "") ∧
      (rec.mPcFaction.serializeText ≠ "" →
        rec.filterPlayerFaction = some rec.mPcFaction.serializeText)) := by
  unfold DialInfo.filterActorId DialInfo.filterActorRace DialInfo.filterActorClass
    DialInfo.filterActorFaction DialInfo.filterActorCell DialInfo.filterPlayerFaction
  simp only [if_neg h]
  refine ⟨?_, ?_, ?_, ?_, ?_, ?_⟩
  · by_cases hv : rec.mActor.serializeText = "" <;> simp [hv]
  · by_cases hv : rec.mRace.serializeText = "" <;> simp [hv]
  · by_cases hv : rec.mClass.serializeText = "" <;> simp [hv]
  · by_cases hv : rec.mFaction.serializeText = "" <;> simp [hv]
  · by_cases hv : rec.mCell.serializeText = "" <;> simp [hv]
  · by_cases hv : rec.mPcFaction.serializeText = "" <;> simp [hv]

/-- Witness of C16: the Voice child shows its actor "fargoth" and, its race identity being
empty, no race. -/
theorem identity_filter_properties_witness :
    voiceInfo.filterActorId = some "fargoth" ∧ voiceInfo.filterActorRace = none :=
  ⟨(identity_filter_properties voiceInfo (by decide)).1.2 (by decide),
   (identity_filter_properties voiceInfo (by decide)).2.1.1.2 rfl⟩

/-- C17: over the store holding the single Journal record "b", the Topic view is empty,
yet its `begin()` does not return `end()`: the body of its loop is the unguarded
`operator++`, which reads the record at the end position.  The same happens on the scenario
store for the Voice view, while its Journal view begins at position 1.  In general `begin()`
is `end()` on the empty store, the position of the first record of the filter type when
there is one, and a read of the end position otherwise. -/
theorem begin_reads_end :
    FilteredDialogueStore.«end» [recB] = 1 ∧
    FilteredDialogueStore.getSize .Topic [recB] = 0 ∧
    FilteredDialogueStore.«begin» .Topic [recB] = .error .endDereferenced ∧
    FilteredDialogueStore.«begin» .Voice scenarioStore = .error .endDereferenced ∧
    FilteredDialogueStore.«begin» .Journal scenarioStore = .ok 1 ∧
    (∀ (filter : DialogueType) (S : Store),
      FilteredDialogueStore.«begin» filter S
        = if S = [] then .ok (FilteredDialogueStore.«end» S)
          else if matching filter S = [] then .error .endDereferenced
          else .ok (S.findIdx (fun d => decide (d.mType = filter)))) := by
  refine ⟨by decide, by decide, by decide, by decide, by decide, ?_⟩
  intro filter S
  exact begin_eq filter S

/-- C18: for every store content and every dialogue record `r` that the store's search
finds under `r`'s own identity, the projection given by the `infos` property of `r` has as
length the number of children of `r`, and its element at the 1-based index `i` is the
`(i-1)`-th element of `r.mInfo` for every `1 ≤ i ≤ length`; the kind of `r` plays no part. -/
theorem infos_of_record (S : Store) (r : Dialogue) (hr : S.search r.mId = some r) (i : Nat) :
    DialogueInfos.length r.infos S = r.mInfo.length ∧
    (1 ≤ i → i ≤ DialogueInfos.length r.infos S →
      ∃ info, r.mInfo[i - 1]? = some info ∧
        DialogueInfos.index r.infos S i = .ok (some info)) := by
  have hlen : DialogueInfos.length r.infos S = r.mInfo.length := by
    simp only [DialogueInfos.length, DialogueInfos.getDialogueRecord, Dialogue.infos, hr]
  refine ⟨hlen, ?_⟩
  intro h1 h2
  rw [hlen] at h2
  have hlt : i - 1 < r.mInfo.length := by omega
  have hguard : ¬ (i = 0 ∨ i > r.mInfo.length) := by omega
  refine ⟨r.mInfo[i - 1], List.getElem?_eq_getElem hlt, ?_⟩
  simp only [DialogueInfos.index, DialogueInfos.getDialogueRecord, Dialogue.infos, hr,
    if_neg hguard, Nat.zero_add, List.getElem?_eq_getElem hlt]

/-- Witness of C18: the scenario store finds the Journal record "b" under its own identity;
the `infos` of "b" have length 2 and their first element is the first child of "b". -/
theorem infos_of_record_witness :
    scenarioStore.search recB.mId = some recB ∧
      DialogueInfos.length recB.infos scenarioStore = 2 ∧
      (∃ info, recB.mInfo[1 - 1]? = some info ∧
        DialogueInfos.index recB.infos scenarioStore 1 = .ok (some info)) :=
  ⟨by decide,
   (infos_of_record scenarioStore recB (by decide) 1).1,
   (infos_of_record scenarioStore recB (by decide) 1).2 (by decide) (by decide)⟩

/-- C19: for every store content, filter and 0-based index `k < getSize()`, the
computation inside `at(k)` is safe.  `begin()` returns a position; after `n` increments, for
every `n ≤ k`, the iterator stands strictly before `end()` on a record of the filter type
(for `n = 0` this is the position `begin()` returned); each of the `k` increments returns
without reading the end position; and `at(k)` returns a record of the filter type. -/
theorem at_is_safe (filter : DialogueType) (S : Store) (k : Nat)
    (hk : k < FilteredDialogueStore.getSize filter S) :
    ∃ first, FilteredDialogueStore.«begin» filter S = .ok first ∧
      (∀ n, n ≤ k → ∃ pos d, FilteredDialogueStore.advance filter S n first = .ok pos ∧
        pos < FilteredDialogueStore.«end» S ∧ deref S pos = .ok d ∧ d.mType = filter) ∧
      (∀ n, n < k → ∃ pos pos', FilteredDialogueStore.advance filter S n first = .ok pos ∧
        FilteredDialogueStore.increment filter S pos = .ok pos' ∧
        FilteredDialogueStore.advance filter S (n + 1) first = .ok pos') ∧
      (∃ d, FilteredDialogueStore.«at» filter S k = .ok (some d) ∧ d.mType = filter) := by
  rw [getSize_eq_length_matching] at hk
  cases hx : matching filter S with
  | nil => rw [hx] at hk; simp at hk
  | cons x xs =>
    obtain ⟨first, tail, hbegin, hat, -⟩ := begin_of_matching_cons filter S x xs hx
    have hstep : ∀ n, n ≤ k → ∃ pos d tail', FilteredDialogueStore.advance filter S n first
        = .ok pos ∧ AtMatch filter S pos n d tail' := by
      intro n hn
      obtain ⟨pos, d, tail', hadv, hat'⟩ := advance_of_AtMatch n hat (by omega)
      rw [Nat.zero_add] at hat'
      exact ⟨pos, d, tail', hadv, hat'⟩
    refine ⟨first, hbegin, ?_, ?_, ?_⟩
    · intro n hn
      obtain ⟨pos, d, tail', hadv, hat'⟩ := hstep n hn
      exact ⟨pos, d, hadv, hat'.lt_length, hat'.deref_eq, hat'.type_eq⟩
    · intro n hn
      obtain ⟨pos, d, tail', hadv, -⟩ := hstep n (by omega)
      obtain ⟨pos', d', tail'', hadv', -⟩ := hstep (n + 1) (by omega)
      refine ⟨pos, pos', hadv, ?_, hadv'⟩
      have hsucc := advance_succ filter S n first
      rw [hadv, hadv'] at hsucc
      exact hsucc.symm
    · obtain ⟨pos, d, tail', hadv, hat'⟩ := hstep k (Nat.le_refl k)
      refine ⟨d, ?_, hat'.type_eq⟩
      rw [at_eq, hat'.matching_getElem]

/-- Witness of C19 on the scenario store: `at(1)` of the Topic view begins at position 0,
increments once to position 2, and returns the record "c" of type Topic. -/
theorem at_is_safe_witness :
    1 < FilteredDialogueStore.getSize .Topic scenarioStore ∧
    ∃ first, FilteredDialogueStore.«begin» .Topic scenarioStore = .ok first ∧
      (∀ n, n ≤ 1 → ∃ pos d, FilteredDialogueStore.advance .Topic scenarioStore n first = .ok pos ∧
        pos < FilteredDialogueStore.«end» scenarioStore ∧ deref scenarioStore pos = .ok d ∧
        d.mType = .Topic) ∧
      (∀ n, n < 1 → ∃ pos pos',
        FilteredDialogueStore.advance .Topic scenarioStore n first = .ok pos ∧
        FilteredDialogueStore.increment .Topic scenarioStore pos = .ok pos' ∧
        FilteredDialogueStore.advance .Topic scenarioStore (n + 1) first = .ok pos') ∧
      (∃ d, FilteredDialogueStore.«at» .Topic scenarioStore 1 = .ok (some d) ∧
        d.mType = .Topic) :=
  ⟨by decide, at_is_safe .Topic scenarioStore 1 (by decide)⟩

/-- C20: for every store content, filter and identity string, the string overload of
`record` and the string overload of the index metamethod both return `search` applied to
the identity deserialized from the lower-cased string; two strings with the same lower-cased
form therefore give the same result in both. -/
theorem string_lookups_agree (lowerCase : String → String) (deserializeText : String → RefId)
    (filter : DialogueType) (S : Store) (id : String) :
    FilteredDialogueStore.record lowerCase deserializeText filter S id
      = FilteredDialogueStore.search filter S (deserializeText (lowerCase id)) ∧
    FilteredDialogueStore.indexString lowerCase deserializeText filter S id
      = FilteredDialogueStore.search filter S (deserializeText (lowerCase id)) ∧
    (∀ other : String, lowerCase other = lowerCase id →
      FilteredDialogueStore.record lowerCase deserializeText filter S other
        = FilteredDialogueStore.record lowerCase deserializeText filter S id ∧
      FilteredDialogueStore.indexString lowerCase deserializeText filter S other
        = FilteredDialogueStore.indexString lowerCase deserializeText filter S id ∧
      FilteredDialogueStore.record lowerCase deserializeText filter S other
        = FilteredDialogueStore.indexString lowerCase deserializeText filter S id) := by
  refine ⟨rfl, rfl, ?_⟩
  intro other h
  simp only [FilteredDialogueStore.record, FilteredDialogueStore.indexString, h, and_self]

/-- Witness of C20 on the scenario store: "C" and "c" lower-case to the same string and
both find the Topic record "c", through either lookup. -/
theorem string_lookups_agree_witness :
    asciiLower "C" = asciiLower "c" ∧
      FilteredDialogueStore.record asciiLower RefId.mk .Topic scenarioStore "C" = some recC ∧
      FilteredDialogueStore.indexString asciiLower RefId.mk .Topic scenarioStore "C"
        = FilteredDialogueStore.indexString asciiLower RefId.mk .Topic scenarioStore "c" :=
  ⟨by decide,
   ((string_lookups_agree asciiLower RefId.mk .Topic scenarioStore "C").1).trans (by decide),
   ((string_lookups_agree asciiLower RefId.mk .Topic scenarioStore "c").2.2 "C"
      (by decide)).2.1⟩

end MWLua
